import Mathlib

/-!
# BlockVerify — verification of the credential anchoring core

A shallow embedding of the credential issuance / verification server
(`src/server/storage.ts`: the `MemStorage` record store, the
`POST /api/credentials/issue`, `GET /api/credentials/verify/:hash` and
`GET /api/health` handlers, together with the commitment construction
`sha256(studentId-universityId-credentialType-issuedAtISO-nonce)`).

External collaborators (the Solana RPC connection, the system clock and the
`crypto.randomBytes` source) are passed in as explicit environment values;
machine words are modelled as `Nat` reduced mod `2^32`.
-/

namespace BlockVerify

/-! ## SHA-256 (embedding of the Node call `crypto.createHash("sha256")`)

The handler computes `crypto.createHash("sha256").update(dataToHash).digest("hex")`.
We embed the FIPS 180-4 SHA-256 algorithm itself: bytes are `Nat` values,
32-bit words are `Nat` reduced mod `2^32`, and the digest is rendered as a
lowercase hexadecimal string exactly as the Node `.digest("hex")` call does. -/

/-- One 32-bit word: a natural number reduced mod `2^32`. -/
def w32 (n : Nat) : Nat := n % 4294967296

/-- 32-bit modular addition. -/
def add32 (a b : Nat) : Nat := (a + b) % 4294967296

/-- Right rotation of a 32-bit word by `r` bits. -/
def rotr32 (r x : Nat) : Nat := w32 ((x >>> r) ||| (x <<< (32 - r)))

/-- SHA-256 `Ch(x,y,z) = (x ∧ y) ⊕ (¬x ∧ z)` (complement via xor with the
32-bit all-ones mask). -/
def ch32 (x y z : Nat) : Nat := (x &&& y) ^^^ ((x ^^^ 4294967295) &&& z)

/-- SHA-256 `Maj(x,y,z)`. -/
def maj32 (x y z : Nat) : Nat := (x &&& y) ^^^ (x &&& z) ^^^ (y &&& z)

/-- SHA-256 big sigma 0. -/
def sigBig0 (x : Nat) : Nat := rotr32 2 x ^^^ rotr32 13 x ^^^ rotr32 22 x

/-- SHA-256 big sigma 1. -/
def sigBig1 (x : Nat) : Nat := rotr32 6 x ^^^ rotr32 11 x ^^^ rotr32 25 x

/-- SHA-256 small sigma 0. -/
def sigSmall0 (x : Nat) : Nat := rotr32 7 x ^^^ rotr32 18 x ^^^ (x >>> 3)

/-- SHA-256 small sigma 1. -/
def sigSmall1 (x : Nat) : Nat := rotr32 17 x ^^^ rotr32 19 x ^^^ (x >>> 10)

/-- The 64 SHA-256 round constants (FIPS 180-4 section 4.2.2, written in
decimal). -/
def sha256K : List Nat :=
  [1116352408, 1899447441, 3049323471, 3921009573, 961987163, 1508970993,
   2453635748, 2870763221, 3624381080, 310598401, 607225278, 1426881987,
   1925078388, 2162078206, 2614888103, 3248222580, 3835390401, 4022224774,
   264347078, 604807628, 770255983, 1249150122, 1555081692, 1996064986,
   2554220882, 2821834349, 2952996808, 3210313671, 3336571891, 3584528711,
   113926993, 338241895, 666307205, 773529912, 1294757372, 1396182291,
   1695183700, 1986661051, 2177026350, 2456956037, 2730485921, 2820302411,
   3259730800, 3345764771, 3516065817, 3600352804, 4094571909, 275423344,
   430227734, 506948616, 659060556, 883997877, 958139571, 1322822218,
   1537002063, 1747873779, 1955562222, 2024104815, 2227730452, 2361852424,
   2428436474, 2756734187, 3204031479, 3329325298]

/-- UTF-8 encoding of a single character as a byte list (the byte view of the
input string that the Node `hash.update` call consumes). -/
def charUtf8 (c : Char) : List Nat :=
  let n := c.toNat
  if n < 128 then [n]
  else if n < 2048 then [192 + n / 64, 128 + n % 64]
  else if n < 65536 then [224 + n / 4096, 128 + n / 64 % 64, 128 + n % 64]
  else [240 + n / 262144, 128 + n / 4096 % 64, 128 + n / 64 % 64, 128 + n % 64]

/-- UTF-8 bytes of a string. -/
def strBytes (s : String) : List Nat := s.data.flatMap charUtf8

/-- Big-endian 8-byte rendering of the message bit length. -/
def be64 (n : Nat) : List Nat :=
  [n / 72057594037927936 % 256, n / 281474976710656 % 256,
   n / 1099511627776 % 256, n / 4294967296 % 256,
   n / 16777216 % 256, n / 65536 % 256, n / 256 % 256, n % 256]

/-- SHA-256 padding: append `0x80`, zero bytes up to 56 mod 64, then the
bit length as a big-endian 64-bit integer. -/
def padMessage (msg : List Nat) : List Nat :=
  let len := msg.length
  let zeros := (119 - len % 64) % 64
  msg ++ 128 :: List.replicate zeros 0 ++ be64 (len * 8)

/-- Split a byte list into 64-byte blocks (fuelled by the list length so the
recursion is structural and computes by kernel reduction). -/
def chunksAux : Nat → List Nat → List (List Nat)
  | 0, _ => []
  | _, [] => []
  | fuel + 1, a :: rest => ((a :: rest).take 64) :: chunksAux fuel ((a :: rest).drop 64)

/-- Split a byte list into 64-byte blocks. -/
def chunks64 (l : List Nat) : List (List Nat) := chunksAux l.length l

/-- Big-endian 32-bit words from a byte list. -/
def bytesToWords : List Nat → List Nat
  | a :: b :: c :: d :: rest => (a * 16777216 + b * 65536 + c * 256 + d) :: bytesToWords rest
  | _ => []

/-- One extension step of the SHA-256 message schedule. -/
def extendStep (acc : Array Nat) : Array Nat :=
  let n := acc.size
  acc.push (add32 (add32 (sigSmall1 (acc.getD (n - 2) 0)) (acc.getD (n - 7) 0))
                  (add32 (sigSmall0 (acc.getD (n - 15) 0)) (acc.getD (n - 16) 0)))

/-- Extend the 16 block words to the 64-entry message schedule. -/
def buildSchedule (ws : List Nat) : Array Nat :=
  (List.range 48).foldl (fun acc _ => extendStep acc) ws.toArray

/-- The eight 32-bit working variables / hash state of SHA-256. -/
structure Hash8 where
  a : Nat
  b : Nat
  c : Nat
  d : Nat
  e : Nat
  f : Nat
  g : Nat
  h : Nat
deriving Repr, DecidableEq

/-- The SHA-256 initial hash value (FIPS 180-4 section 5.3.3, in decimal). -/
def sha256Init : Hash8 :=
  ⟨1779033703, 3144134277, 1013904242, 2773480762,
   1359893119, 2600822924, 528734635, 1541459225⟩

/-- One SHA-256 compression round. -/
def compressRound (st : Hash8) (ki wi : Nat) : Hash8 :=
  let t1 := add32 (add32 (add32 st.h (sigBig1 st.e)) (add32 (ch32 st.e st.f st.g) ki)) wi
  let t2 := add32 (sigBig0 st.a) (maj32 st.a st.b st.c)
  ⟨add32 t1 t2, st.a, st.b, st.c, add32 st.d t1, st.e, st.f, st.g⟩

/-- Compress one 64-byte block into the running hash state. -/
def compressBlock (st : Hash8) (block : List Nat) : Hash8 :=
  let ws := buildSchedule (bytesToWords block)
  let fin := (List.range 64).foldl
    (fun s i => compressRound s (sha256K.getD i 0) (ws.getD i 0)) st
  ⟨add32 st.a fin.a, add32 st.b fin.b, add32 st.c fin.c, add32 st.d fin.d,
   add32 st.e fin.e, add32 st.f fin.f, add32 st.g fin.g, add32 st.h fin.h⟩

/-- SHA-256 of a byte list: pad, then compress each block. -/
def sha256Bytes (msg : List Nat) : Hash8 :=
  (chunks64 (padMessage msg)).foldl compressBlock sha256Init

/-- Lowercase hexadecimal digit characters, as produced by `.digest("hex")`. -/
def hexDigit (d : Nat) : Char :=
  "0123456789abcdef".data.getD d '0'

/-- Eight-character lowercase hex rendering of one 32-bit word. -/
def hex8 (x : Nat) : String :=
  ⟨[hexDigit (x / 268435456 % 16), hexDigit (x / 16777216 % 16),
    hexDigit (x / 1048576 % 16), hexDigit (x / 65536 % 16),
    hexDigit (x / 4096 % 16), hexDigit (x / 256 % 16),
    hexDigit (x / 16 % 16), hexDigit (x % 16)]⟩

/-- `crypto.createHash("sha256").update(s).digest("hex")`: the 64-character
lowercase hexadecimal SHA-256 digest of a string. -/
def sha256hex (s : String) : String :=
  let d := sha256Bytes (strBytes s)
  hex8 d.a ++ hex8 d.b ++ hex8 d.c ++ hex8 d.d ++ hex8 d.e ++ hex8 d.f ++ hex8 d.g ++ hex8 d.h

set_option maxRecDepth 10000

/-- FIPS 180-4 test vector: digest of the empty string. -/
theorem sha256hex_empty :
    sha256hex "" = "e3b0c44298fc1c149afbf4c8996fb92427ae41e4649b934ca495991b7852b855" := by
  decide

/-- FIPS 180-4 test vector: digest of `"abc"`. -/
theorem sha256hex_abc :
    sha256hex "abc" = "ba7816bf8f01cfea414140de5dae2223b00361a396177a9cb410ff61f20015ad" := by
  decide

/-! ## Digest shape lemmas -/

/-- A lowercase hexadecimal character (the shape of every `.digest("hex")`
output character). -/
def isLowerHex (c : Char) : Bool :=
  ('0' ≤ c && c ≤ '9') || ('a' ≤ c && c ≤ 'f')

/-- Every character of `s` is lowercase hexadecimal. -/
def isLowerHexStr (s : String) : Bool := s.data.all isLowerHex

theorem hexDigit_isLowerHex : ∀ i : Fin 16, isLowerHex (hexDigit i.val) = true := by
  decide

theorem hexDigit_mod_isLowerHex (x : Nat) : isLowerHex (hexDigit (x % 16)) = true :=
  hexDigit_isLowerHex ⟨x % 16, Nat.mod_lt x (by omega)⟩

theorem hex8_length (x : Nat) : (hex8 x).length = 8 := rfl

theorem hex8_isLowerHex (x : Nat) : isLowerHexStr (hex8 x) = true := by
  simp [isLowerHexStr, hex8, List.all, hexDigit_mod_isLowerHex]

theorem sha256hex_length (s : String) : (sha256hex s).length = 64 := by
  simp [sha256hex, String.length_append, hex8_length]

theorem sha256hex_isLowerHex (s : String) : isLowerHexStr (sha256hex s) = true := by
  have h := fun x => hex8_isLowerHex x
  simp only [isLowerHexStr] at h ⊢
  simp [sha256hex, String.data_append, List.all_append, h]

/-! ## Decimal rendering of `universityId`

`${universityId}` in the template literal renders the authenticated user
numeric id in standard decimal notation. The renderer is fuelled so that it
computes by structural recursion; `natDecChars_eq_digits` relates it to
the Mathlib `Nat.digits` function for the injectivity proofs. -/

/-- Decimal digits of `n` (most significant first), fuelled. -/
def natDecAux : Nat → Nat → List Char
  | 0, _ => []
  | _, 0 => []
  | fuel + 1, n + 1 => natDecAux fuel ((n + 1) / 10) ++ [hexDigit ((n + 1) % 10)]

/-- Characters of the standard decimal rendering of `n`. -/
def natDecChars (n : Nat) : List Char := if n = 0 then ['0'] else natDecAux n n

/-- Standard decimal rendering of a natural number, as produced by the
JavaScript template literal for a number. -/
def natDec (n : Nat) : String := ⟨natDecChars n⟩

theorem natDecAux_eq_digits :
    ∀ (fuel m : Nat), m ≤ fuel → natDecAux fuel m = ((Nat.digits 10 m).map hexDigit).reverse := by
  intro fuel
  induction fuel with
  | zero => intro m hm; interval_cases m; simp [natDecAux]
  | succ f ih =>
    intro m hm
    match m with
    | 0 => simp [natDecAux]
    | k + 1 =>
      rw [natDecAux, Nat.digits_def' (by omega) (Nat.succ_pos k)]
      rw [ih ((k + 1) / 10) (by omega)]
      simp

theorem natDecChars_eq_digits (n : Nat) :
    natDecChars n = if n = 0 then ['0'] else ((Nat.digits 10 n).map hexDigit).reverse := by
  unfold natDecChars
  split
  · rfl
  · exact natDecAux_eq_digits n n le_rfl

theorem hexDigit_fin_inj : ∀ i j : Fin 16, hexDigit i.val = hexDigit j.val → i = j := by
  decide

theorem hexDigit_inj_lt {a b : Nat} (ha : a < 16) (hb : b < 16) (h : hexDigit a = hexDigit b) :
    a = b := by
  have := hexDigit_fin_inj ⟨a, ha⟩ ⟨b, hb⟩ h
  exact congrArg Fin.val this

theorem hexDigit_ne_dash : ∀ i : Fin 16, hexDigit i.val ≠ '-' := by
  decide

theorem map_hexDigit_inj :
    ∀ (l1 l2 : List Nat), (∀ d ∈ l1, d < 16) → (∀ d ∈ l2, d < 16) →
      l1.map hexDigit = l2.map hexDigit → l1 = l2 := by
  intro l1
  induction l1 with
  | nil => intro l2 _ _ h; cases l2 <;> simp_all
  | cons a t ih =>
    intro l2 h1 h2 h
    cases l2 with
    | nil => simp_all
    | cons b t2 =>
      simp only [List.map_cons, List.cons.injEq] at h
      have ha : a < 16 := h1 a (by simp)
      have hb : b < 16 := h2 b (by simp)
      have : a = b := hexDigit_inj_lt ha hb h.1
      have ht : t = t2 := ih t2 (fun d hd => h1 d (by simp [hd])) (fun d hd => h2 d (by simp [hd])) h.2
      simp [this, ht]

theorem digits_map_rev_ne {n : Nat} (hn : n ≠ 0) :
    ((Nat.digits 10 n).map hexDigit).reverse ≠ ['0'] := by
  intro h
  have h' : (Nat.digits 10 n).map hexDigit = ['0'] := by
    have h2 := congrArg List.reverse h
    simpa using h2
  cases hd : Nat.digits 10 n with
  | nil => rw [hd] at h'; simp at h'
  | cons d rest =>
    rw [hd] at h'
    simp only [List.map_cons, List.cons.injEq] at h'
    obtain ⟨hdc, hrest⟩ := h'
    have hrest' : rest = [] := by
      cases rest with
      | nil => rfl
      | cons a b => simp at hrest
    have hd16 : d < 16 := by
      have := Nat.digits_lt_base (b := 10) (by omega) (by rw [hd]; exact List.mem_cons_self d rest)
      omega
    have hd0 : d = 0 := hexDigit_inj_lt hd16 (by omega) (by rw [hdc]; rfl)
    have hofd := Nat.ofDigits_digits 10 n
    rw [hd, hrest', hd0] at hofd
    simp [Nat.ofDigits_cons, Nat.ofDigits_nil] at hofd
    exact hn hofd.symm

theorem natDecChars_inj {m n : Nat} (h : natDecChars m = natDecChars n) : m = n := by
  rw [natDecChars_eq_digits, natDecChars_eq_digits] at h
  by_cases hm : m = 0 <;> by_cases hn : n = 0
  · omega
  · rw [if_pos hm, if_neg hn] at h
    exact absurd h.symm (digits_map_rev_ne hn)
  · rw [if_neg hm, if_pos hn] at h
    exact absurd h (digits_map_rev_ne hm)
  · rw [if_neg hm, if_neg hn] at h
    have h2 := List.reverse_injective h
    have hdig := map_hexDigit_inj _ _
      (fun d hd => by have := Nat.digits_lt_base (b := 10) (by omega) hd; omega)
      (fun d hd => by have := Nat.digits_lt_base (b := 10) (by omega) hd; omega) h2
    rw [← Nat.ofDigits_digits 10 m, ← Nat.ofDigits_digits 10 n, hdig]

theorem natDecChars_no_dash (n : Nat) : '-' ∉ natDecChars n := by
  rw [natDecChars_eq_digits]
  split
  · decide
  · intro hmem
    simp only [List.mem_reverse, List.mem_map] at hmem
    obtain ⟨d, hd, hdc⟩ := hmem
    have hd16 : d < 16 := by
      have := Nat.digits_lt_base (b := 10) (by omega) hd
      omega
    exact hexDigit_ne_dash ⟨d, hd16⟩ hdc

/-! ## Commitment builder

`const dataToHash = ${studentId}-${universityId}-${credentialType}-${issuedAt.toISOString()}-${nonce}`
`const hash = crypto.createHash("sha256").update(dataToHash).digest("hex")`
(`issuedAt` is modelled by its ISO string, the value interpolated into the
template and hashed). -/

/-- The pre-hash encoding: the dash-joined template literal. -/
def dataToHash (studentId : String) (universityId : Nat)
    (credentialType issuedAt nonce : String) : String :=
  studentId ++ "-" ++ natDec universityId ++ "-" ++ credentialType ++ "-" ++
    issuedAt ++ "-" ++ nonce

/-- The credential commitment: SHA-256 hex digest of the dash-joined fields. -/
def credentialHash (studentId : String) (universityId : Nat)
    (credentialType issuedAt nonce : String) : String :=
  sha256hex (dataToHash studentId universityId credentialType issuedAt nonce)

theorem dashfree_append_inj :
    ∀ (a b x y : List Char), '-' ∉ a → '-' ∉ b → a ++ '-' :: x = b ++ '-' :: y →
      a = b ∧ x = y := by
  intro a
  induction a with
  | nil =>
    intro b x y _ hb h
    cases b with
    | nil => simpa using h
    | cons c bs =>
      simp only [List.nil_append, List.cons_append, List.cons.injEq] at h
      exact absurd (h.1 ▸ List.mem_cons_self c bs) hb
  | cons c as ih =>
    intro b x y ha hb h
    cases b with
    | nil =>
      simp only [List.cons_append, List.nil_append, List.cons.injEq] at h
      exact absurd (h.1 ▸ List.mem_cons_self c as) ha
    | cons c2 bs =>
      simp only [List.cons_append, List.cons.injEq] at h
      obtain ⟨hc, hrest⟩ := h
      have := ih bs x y (fun hm => ha (List.mem_cons_of_mem c hm))
        (fun hm => hb (List.mem_cons_of_mem c2 hm)) hrest
      exact ⟨by simp [hc, this.1], this.2⟩

theorem dataToHash_data (sid : String) (uni : Nat) (ct t n : String) :
    (dataToHash sid uni ct t n).data =
      sid.data ++ '-' :: (natDecChars uni ++ '-' :: (ct.data ++ '-' :: (t.data ++ '-' :: n.data))) := by
  simp [dataToHash, String.data_append, natDec]

/-- Injectivity of the dash-joined encoding, provided no field contains the
separator character. -/
theorem dataToHash_inj
    (sid1 : String) (uni1 : Nat) (ct1 t1 n1 : String)
    (sid2 : String) (uni2 : Nat) (ct2 t2 n2 : String)
    (hsid1 : '-' ∉ sid1.data) (hct1 : '-' ∉ ct1.data) (ht1 : '-' ∉ t1.data)
    (hsid2 : '-' ∉ sid2.data) (hct2 : '-' ∉ ct2.data) (ht2 : '-' ∉ t2.data)
    (h : dataToHash sid1 uni1 ct1 t1 n1 = dataToHash sid2 uni2 ct2 t2 n2) :
    sid1 = sid2 ∧ uni1 = uni2 ∧ ct1 = ct2 ∧ t1 = t2 ∧ n1 = n2 := by
  have hd := congrArg String.data h
  rw [dataToHash_data, dataToHash_data] at hd
  obtain ⟨hsid, hd⟩ := dashfree_append_inj _ _ _ _ hsid1 hsid2 hd
  obtain ⟨huni, hd⟩ := dashfree_append_inj _ _ _ _ (natDecChars_no_dash uni1)
    (natDecChars_no_dash uni2) hd
  obtain ⟨hct, hd⟩ := dashfree_append_inj _ _ _ _ hct1 hct2 hd
  obtain ⟨ht, hn⟩ := dashfree_append_inj _ _ _ _ ht1 ht2 hd
  exact ⟨String.ext hsid, natDecChars_inj huni, String.ext hct, String.ext ht, String.ext hn⟩

/-! ## Data model (`src/shared/schema.ts`) and record store (`MemStorage`)

The `credentials` table: `id, studentId, universityId, credentialType, hash,
transactionId, issuedAt`. `issuedAt` (a timestamp) is modelled by its ISO
string. Note the table has no `nonce` column: `insertCredentialSchema.parse`
strips the `nonce` the issue handler passes, so the nonce is not persisted. -/

structure User where
  id : Nat
  username : String
  password : String
  role : String
  universityName : Option String
deriving Repr, DecidableEq

structure Credential where
  id : Nat
  studentId : String
  universityId : Nat
  credentialType : String
  hash : String
  transactionId : String
  issuedAt : String
deriving Repr, DecidableEq

/-- The in-memory record store. The session store and the user map do not
interact with the credential operations and are omitted; `credentials` is the
`Map<number, Credential>` as an insertion-ordered association list. -/
structure MemStorage where
  credentials : List (Nat × Credential)
  currentCredentialId : Nat
deriving Repr, DecidableEq

/-- The store as freshly constructed: empty map, id counter 1. -/
def emptyStorage : MemStorage := ⟨[], 1⟩

/-- `MemStorage.createCredential`: assign the next id, insert, return the
stored record. No uniqueness check of any kind is performed. -/
def createCredential (st : MemStorage) (credential : Credential) : MemStorage × Credential :=
  let id := st.currentCredentialId
  let newCredential := { credential with id := id }
  (⟨st.credentials ++ [(id, newCredential)], id + 1⟩, newCredential)

/-- `MemStorage.getCredentialByHash`: first inserted record whose `hash`
equals the argument (`Array.from(map.values()).find(...)`). -/
def getCredentialByHash (st : MemStorage) (hash : String) : Option Credential :=
  (st.credentials.map Prod.snd).find? (fun credential => credential.hash == hash)

/-- JavaScript `String.prototype.startsWith`, on the character sequences. -/
def strStartsWith (s p : String) : Bool := p.data.isPrefixOf s.data

/-- The sentinel test `transactionId.startsWith("simulated_")` used by both
handlers to discriminate simulated from ledger-backed records. -/
def isSimulatedTx (transactionId : String) : Bool := strStartsWith transactionId "simulated_"

theorem strStartsWith_append (p t : String) : strStartsWith (p ++ t) p = true := by
  rw [strStartsWith, String.data_append, List.isPrefixOf_iff_prefix]
  exact ⟨t.data, rfl⟩

/-! ## Issuance pipeline (`POST /api/credentials/issue`)

External effects are supplied through `IssueEnv`: the two `crypto.randomBytes`
draws, the clock reading (`new Date()`, modelled by its ISO string), and the
three Solana RPC outcomes. An RPC call that throws is an `Except.error`.
The externally visible calls of the handler are recorded as an event trace. -/

/-- The request body. `userInputSchema` reads only `studentId` and
`credentialType`; the remaining fields model any extra caller-supplied JSON
keys (which `safeParse` strips). -/
structure IssueBody where
  studentId : Option String
  credentialType : Option String
  universityId : Option Nat
  hash : Option String
  nonce : Option String
  transactionId : Option String
  issuedAtField : Option String
deriving Repr, DecidableEq

/-- Outcomes of the external collaborators during one issuance. -/
structure IssueEnv where
  nonce : String
  issuedAt : String
  simSuffix : String
  balanceResult : Except Unit Nat
  blockhashResult : Except Unit String
  sendResult : Except Unit String
deriving Repr

inductive IssueEvent where
  | balanceQuery
  | blockhashQuery
  | ledgerWrite
  | storeCreate
deriving Repr, DecidableEq

inductive IssueError where
  | unauthorized
  | invalidInput
deriving Repr, DecidableEq

/-- The `credential` object of the success response, including the derived
`isSimulated` flag. -/
structure IssueResponse where
  id : Nat
  hash : String
  transactionId : String
  issuedAt : String
  isSimulated : Bool
deriving Repr, DecidableEq

/-- The funds-check / ledger-write block (the `try`/`catch` around
`getBalance`, `getLatestBlockhash` and `sendAndConfirmTransaction`): any
throw, or a balance of at most 5000 lamports, falls back to the simulated
transaction id `"simulated_" + randomBytes(32).toString("hex")`. -/
def ledgerAttempt (env : IssueEnv) : List IssueEvent × String :=
  match env.balanceResult with
  | .error _ => ([.balanceQuery], "simulated_" ++ env.simSuffix)
  | .ok balance =>
    if balance > 5000 then
      match env.blockhashResult with
      | .error _ => ([.balanceQuery, .blockhashQuery], "simulated_" ++ env.simSuffix)
      | .ok _ =>
        match env.sendResult with
        | .error _ => ([.balanceQuery, .blockhashQuery, .ledgerWrite], "simulated_" ++ env.simSuffix)
        | .ok transactionId => ([.balanceQuery, .blockhashQuery, .ledgerWrite], transactionId)
    else ([.balanceQuery], "simulated_" ++ env.simSuffix)

/-- The `POST /api/credentials/issue` handler. -/
def issueHandler (user : Option User) (body : IssueBody) (env : IssueEnv) (st : MemStorage) :
    List IssueEvent × Except IssueError (MemStorage × IssueResponse) :=
  match user with
  | none => ([], .error .unauthorized)
  | some u =>
    if u.role = "university" then
      match body.studentId, body.credentialType with
      | some studentId, some credentialType =>
        let nonce := env.nonce
        let issuedAt := env.issuedAt
        let universityId := u.id
        let hash := credentialHash studentId universityId credentialType issuedAt nonce
        let openAttempt := ledgerAttempt env
        let transactionId := openAttempt.2
        let inserted := createCredential st
          ⟨0, studentId, universityId, credentialType, hash, transactionId, issuedAt⟩
        (openAttempt.1 ++ [.storeCreate],
         .ok (inserted.1,
              ⟨inserted.2.id, inserted.2.hash, inserted.2.transactionId, inserted.2.issuedAt,
               isSimulatedTx transactionId⟩))
      | _, _ => ([], .error .invalidInput)
    else ([], .error .unauthorized)

/-! ## Verification pipeline (`GET /api/credentials/verify/:hash`)

The ledger is supplied as a `getTransaction` oracle: `.error` models a thrown
RPC call (surfaced as a 500, `LedgerUnavailable`), `.ok none` a missing
transaction. The `data` field of an instruction is its decoded opaque payload (the
source decodes the wire base64 before comparing). -/

/-- One instruction of a fetched ledger transaction, with its payload already
decoded to text (`Buffer.from(instruction.data, "base64").toString("utf8")`). -/
structure Instr where
  programId : String
  data : String
deriving Repr, DecidableEq

/-- A fetched ledger transaction. `confirmations` models the optional
`meta?.confirmations`. -/
structure LedgerTx where
  instructions : List Instr
  blockTime : Int
  slot : Nat
  confirmations : Option Nat
deriving Repr, DecidableEq

/-- The fixed Solana memo program id. -/
def memoProgramId : String := "MemoSq4gqABAXKb96qnH8TysNcWxMyWCqXgDLGmfcHr"

/-- The hash-shape gate `/^[a-f0-9]{64}$/i`: hex digits of either case. -/
def isHexCI (c : Char) : Bool := isLowerHex c || ('A' ≤ c && c ≤ 'F')

/-- `/^[a-f0-9]{64}$/i.test(hash)` (an empty string is also rejected by the
separate `!hash` guard, and fails this test anyway). -/
def hashFormatOk (s : String) : Bool := s.length == 64 && s.data.all isHexCI

inductive VerifyEvent where
  | storeLookup (hash : String)
  | ledgerFetch (transactionId : String)
deriving Repr, DecidableEq

inductive VerifyError where
  | malformedHash
  | notFound
  | txNotFound
  | hashMismatch
  | ledgerUnavailable
deriving Repr, DecidableEq

/-- The `credential` object of the verification response (the nonce is neither
stored nor returned). -/
structure CredentialView where
  id : Nat
  studentId : String
  credentialType : String
  universityId : Nat
  issuedAt : String
deriving Repr, DecidableEq

structure BlockchainProof where
  transactionId : String
  blockTime : Int
  slot : Nat
  confirmations : Nat
deriving Repr, DecidableEq

structure VerifySuccess where
  verified : Bool
  simulatedOnly : Bool
  credential : CredentialView
  blockchainProof : Option BlockchainProof
deriving Repr, DecidableEq

def credView (c : Credential) : CredentialView :=
  ⟨c.id, c.studentId, c.credentialType, c.universityId, c.issuedAt⟩

/-- The `GET /api/credentials/verify/:hash` handler. -/
def verifyHandler (hash : String) (st : MemStorage)
    (getTransaction : String → Except Unit (Option LedgerTx)) :
    List VerifyEvent × Except VerifyError VerifySuccess :=
  if hashFormatOk hash then
    match getCredentialByHash st hash with
    | none => ([.storeLookup hash], .error .notFound)
    | some credential =>
      if isSimulatedTx credential.transactionId then
        ([.storeLookup hash], .ok ⟨true, true, credView credential, none⟩)
      else
        match getTransaction credential.transactionId with
        | .error _ =>
          ([.storeLookup hash, .ledgerFetch credential.transactionId], .error .ledgerUnavailable)
        | .ok none =>
          ([.storeLookup hash, .ledgerFetch credential.transactionId], .error .txNotFound)
        | .ok (some transaction) =>
          if transaction.instructions.any
              (fun instruction => instruction.programId == memoProgramId && instruction.data == hash)
          then
            ([.storeLookup hash, .ledgerFetch credential.transactionId],
             .ok ⟨true, false, credView credential,
                  some ⟨credential.transactionId, transaction.blockTime, transaction.slot,
                        transaction.confirmations.getD 0⟩⟩)
          else
            ([.storeLookup hash, .ledgerFetch credential.transactionId], .error .hashMismatch)
  else ([], .error .malformedHash)

/-! ## Liveness monitor (`GET /api/health`) -/

/-- Probe outcomes for one health check. The memstore latency measurement is a
wall-clock reading that does not influence any reported status and is not
modelled. -/
structure HealthEnv where
  storeConnected : Bool
  blockhashOk : Bool
  balanceResult : Except Unit Nat
deriving Repr

structure HealthReport where
  status : String
  memstoreHealthy : Bool
  blockchainStatus : String
  walletStatus : String
  balance : Nat
  canIssueTxs : Bool
deriving Repr, DecidableEq

/-- The `GET /api/health` handler. -/
def healthHandler (env : HealthEnv) : HealthReport :=
  let memstoreHealthy := env.storeConnected
  let blockchainStatus := if env.blockhashOk then "connected" else "disconnected"
  let wallet :=
    match env.balanceResult with
    | .ok balance => (balance, if balance > 5000 then "funded" else "insufficient_funds")
    | .error _ => (0, "no_funds")
  let allHealthy := memstoreHealthy && (blockchainStatus == "connected")
  ⟨if allHealthy then "healthy" else "degraded",
   memstoreHealthy, blockchainStatus, wallet.2, wallet.1, wallet.1 > 5000⟩

/-! ## Shared lemmas about the handlers -/

instance {ε α : Type} [DecidableEq ε] [DecidableEq α] : DecidableEq (Except ε α) := fun x y =>
  match x, y with
  | .error a, .error b =>
    if h : a = b then isTrue (h ▸ rfl) else isFalse (fun hc => h (by injection hc))
  | .ok a, .ok b =>
    if h : a = b then isTrue (h ▸ rfl) else isFalse (fun hc => h (by injection hc))
  | .error _, .ok _ => isFalse (fun hc => Except.noConfusion hc)
  | .ok _, .error _ => isFalse (fun hc => Except.noConfusion hc)

theorem hashFormatOk_sha256 (s : String) : hashFormatOk (sha256hex s) = true := by
  have hhex := sha256hex_isLowerHex s
  simp only [isLowerHexStr, List.all_eq_true] at hhex
  simp only [hashFormatOk, sha256hex_length, beq_self_eq_true, Bool.true_and, List.all_eq_true]
  intro c hc
  simp [isHexCI, hhex c hc]

theorem getCredentialByHash_insert (st : MemStorage) (c : Credential)
    (hfresh : getCredentialByHash st c.hash = none) :
    getCredentialByHash (createCredential st c).1 c.hash
      = some { c with id := st.currentCredentialId } := by
  unfold getCredentialByHash at hfresh ⊢
  unfold createCredential
  simp only [List.map_append, List.find?_append, hfresh, Option.none_or, List.map_cons,
    List.map_nil, List.find?]
  simp

/-! ## Claims -/

/-- C3: the commitment is the SHA-256 lowercase hexadecimal digest of the
dash-joined field string; its length is always 64 characters (256 bits);
and it is a pure deterministic function of the five fields: repeated
applications to the same input are one and the same value. -/
theorem commitment_is_fixed_length_sha256_of_joined_fields
    (studentId : String) (universityId : Nat) (credentialType issuedAt nonce : String) :
    credentialHash studentId universityId credentialType issuedAt nonce
        = sha256hex (dataToHash studentId universityId credentialType issuedAt nonce) ∧
      (credentialHash studentId universityId credentialType issuedAt nonce).length = 64 ∧
      isLowerHexStr (credentialHash studentId universityId credentialType issuedAt nonce) = true ∧
      credentialHash studentId universityId credentialType issuedAt nonce
        = credentialHash studentId universityId credentialType issuedAt nonce :=
  ⟨rfl, sha256hex_length _, sha256hex_isLowerHex _, rfl⟩

theorem commitment_is_fixed_length_sha256_of_joined_fields_witness :
    credentialHash "S1" 7 "degree" "T0" "ab" = sha256hex (dataToHash "S1" 7 "degree" "T0" "ab") ∧
    (credentialHash "S1" 7 "degree" "T0" "ab").length = 64 ∧
    isLowerHexStr (credentialHash "S1" 7 "degree" "T0" "ab") = true ∧
    credentialHash "S1" 7 "degree" "T0" "ab" = credentialHash "S1" 7 "degree" "T0" "ab" :=
  commitment_is_fixed_length_sha256_of_joined_fields "S1" 7 "degree" "T0" "ab"

/-- C9: the health snapshot is `"healthy"` exactly when the record store is
connected and the latest blockhash could be fetched; the wallet balance
outcome never affects the overall status, and an unfunded wallet with both
probes passing still reports `"healthy"`. -/
theorem health_status_ignores_wallet :
    (∀ env : HealthEnv,
       (healthHandler env).status = "healthy" ↔
         (env.storeConnected = true ∧ env.blockhashOk = true)) ∧
    (∀ (env : HealthEnv) (b : Except Unit Nat),
       (healthHandler { env with balanceResult := b }).status = (healthHandler env).status) ∧
    (healthHandler ⟨true, true, .ok 0⟩).status = "healthy" := by
  refine ⟨?_, ?_, rfl⟩
  · rintro ⟨sc, bo, br⟩
    cases sc <;> cases bo <;> simp [healthHandler]
  · rintro ⟨sc, bo, br⟩ b
    rfl

theorem health_status_ignores_wallet_witness :
    (healthHandler ⟨true, true, .error ()⟩).status = "healthy" :=
  (health_status_ignores_wallet.1 ⟨true, true, .error ()⟩).mpr ⟨rfl, rfl⟩

/-- C5 counterexample: the 64-character string of the uppercase letter A repeated is not
lowercase hexadecimal, yet the gate `/^[a-f0-9]{64}$/i` accepts it (the `i`
flag), so verification proceeds to a record-store lookup instead of rejecting
it as MalformedHash. -/
theorem uppercase_hash_reaches_lookup :
    isLowerHexStr ⟨List.replicate 64 'A'⟩ = false ∧
    hashFormatOk ⟨List.replicate 64 'A'⟩ = true ∧
    verifyHandler ⟨List.replicate 64 'A'⟩ emptyStorage (fun _ => .error ())
      = ([.storeLookup ⟨List.replicate 64 'A'⟩], .error .notFound) := by
  refine ⟨by decide, by decide, ?_⟩
  decide

/-- C5 amended: any verification input that is not exactly 64 hexadecimal
characters — of either case, the regular expression being case-insensitive —
is rejected as MalformedHash with no record-store lookup; every input of that
case-insensitive shape proceeds to the lookup step. -/
theorem malformed_hash_rejected_before_lookup (s : String) (st : MemStorage)
    (gt : String → Except Unit (Option LedgerTx)) :
    (hashFormatOk s = false → verifyHandler s st gt = ([], .error .malformedHash)) ∧
    (hashFormatOk s = true → ∃ rest, (verifyHandler s st gt).1 = .storeLookup s :: rest) := by
  constructor
  · intro h
    simp [verifyHandler, h]
  · intro h
    cases hc : getCredentialByHash st s with
    | none => exact ⟨[], by simp [verifyHandler, h, hc]⟩
    | some cred =>
      by_cases hsim : isSimulatedTx cred.transactionId = true
      · exact ⟨[], by simp [verifyHandler, h, hc, hsim]⟩
      · cases hgt : gt cred.transactionId with
        | error e =>
          exact ⟨[.ledgerFetch cred.transactionId], by simp [verifyHandler, h, hc, hsim, hgt]⟩
        | ok otx =>
          cases otx with
          | none =>
            exact ⟨[.ledgerFetch cred.transactionId], by simp [verifyHandler, h, hc, hsim, hgt]⟩
          | some tx =>
            refine ⟨[.ledgerFetch cred.transactionId], ?_⟩
            by_cases hany : tx.instructions.any
                (fun instruction =>
                  instruction.programId == memoProgramId && instruction.data == s) = true
            · simp [verifyHandler, h, hc, hsim, hgt, hany]
            · simp [verifyHandler, h, hc, hsim, hgt, hany]

theorem malformed_hash_rejected_before_lookup_witness :
    hashFormatOk "zz" = false ∧
    verifyHandler "zz" emptyStorage (fun _ => .error ()) = ([], .error .malformedHash) :=
  ⟨by decide,
   (malformed_hash_rejected_before_lookup "zz" emptyStorage (fun _ => .error ())).1 (by decide)⟩

/-- C6: a stored credential whose `transactionId` carries the simulated
sentinel is verified from the store record alone: for every ledger oracle the
result is identical — the trace contains only the store lookup (no ledger
fetch), and the response is `verified = true`, `simulatedOnly = true`, with
no `blockchainProof`. -/
theorem simulated_credential_verified_without_ledger
    (s : String) (st : MemStorage) (cred : Credential)
    (hfmt : hashFormatOk s = true)
    (hlook : getCredentialByHash st s = some cred)
    (hsim : isSimulatedTx cred.transactionId = true) :
    ∀ gt : String → Except Unit (Option LedgerTx),
      verifyHandler s st gt = ([.storeLookup s], .ok ⟨true, true, credView cred, none⟩) := by
  intro gt
  simp [verifyHandler, hfmt, hlook, hsim]

def wSimHash : String := ⟨List.replicate 64 'a'⟩

def wSimCred : Credential := ⟨1, "S1", 7, "degree", wSimHash, "simulated_x", "T0"⟩

def wSimStore : MemStorage := ⟨[(1, wSimCred)], 2⟩

theorem simulated_credential_verified_without_ledger_witness :
    hashFormatOk wSimHash = true ∧
    getCredentialByHash wSimStore wSimHash = some wSimCred ∧
    isSimulatedTx wSimCred.transactionId = true ∧
    verifyHandler wSimHash wSimStore (fun _ => .error ())
      = ([.storeLookup wSimHash], .ok ⟨true, true, credView wSimCred, none⟩) :=
  ⟨by decide, by decide, by decide,
   simulated_credential_verified_without_ledger wSimHash wSimStore wSimCred
     (by decide) (by decide) (by decide) (fun _ => .error ())⟩

/-- C7: for a real-mode credential whose fetched transaction has no memo
instruction whose decoded payload equals the hash, verification rejects with
HashMismatch; if the payload of some memo instruction equals the hash exactly,
verification does not reject with HashMismatch. -/
theorem memo_scan_decides_hash_mismatch
    (s : String) (st : MemStorage) (cred : Credential) (tx : LedgerTx)
    (gt : String → Except Unit (Option LedgerTx))
    (hfmt : hashFormatOk s = true)
    (hlook : getCredentialByHash st s = some cred)
    (hreal : isSimulatedTx cred.transactionId = false)
    (hgt : gt cred.transactionId = .ok (some tx)) :
    ((∀ i ∈ tx.instructions, ¬(i.programId = memoProgramId ∧ i.data = s)) →
       verifyHandler s st gt
         = ([.storeLookup s, .ledgerFetch cred.transactionId], .error .hashMismatch)) ∧
    ((∃ i ∈ tx.instructions, i.programId = memoProgramId ∧ i.data = s) →
       (verifyHandler s st gt).2 ≠ .error .hashMismatch) := by
  constructor
  · intro hnone
    have hany : tx.instructions.any
        (fun instruction => instruction.programId == memoProgramId && instruction.data == s) = false := by
      rw [Bool.eq_false_iff]
      intro hc
      rw [List.any_eq_true] at hc
      obtain ⟨i, hi, hp⟩ := hc
      simp only [Bool.and_eq_true, beq_iff_eq] at hp
      exact hnone i hi hp
    simp [verifyHandler, hfmt, hlook, hreal, hgt, hany]
  · intro hsome
    have hany : tx.instructions.any
        (fun instruction => instruction.programId == memoProgramId && instruction.data == s) = true := by
      rw [List.any_eq_true]
      obtain ⟨i, hi, hp⟩ := hsome
      exact ⟨i, hi, by simp [hp.1, hp.2]⟩
    simp [verifyHandler, hfmt, hlook, hreal, hgt, hany]

def wRealCred : Credential := ⟨1, "S1", 7, "degree", wSimHash, "TX9", "T0"⟩

def wRealStore : MemStorage := ⟨[(1, wRealCred)], 2⟩

def wEmptyTx : LedgerTx := ⟨[], 5, 9, none⟩

theorem memo_scan_decides_hash_mismatch_witness :
    hashFormatOk wSimHash = true ∧
    getCredentialByHash wRealStore wSimHash = some wRealCred ∧
    isSimulatedTx wRealCred.transactionId = false ∧
    verifyHandler wSimHash wRealStore (fun _ => .ok (some wEmptyTx))
      = ([.storeLookup wSimHash, .ledgerFetch wRealCred.transactionId], .error .hashMismatch) :=
  ⟨by decide, by decide, by decide,
   (memo_scan_decides_hash_mismatch wSimHash wRealStore wRealCred wEmptyTx
      (fun _ => .ok (some wEmptyTx)) (by decide) (by decide) (by decide) rfl).1
     (by intro i hi; simp [wEmptyTx] at hi)⟩

/-! ## Hash uniqueness of the record store -/

/-- At most one stored credential per hash value. -/
def hashUnique (st : MemStorage) : Prop :=
  List.Pairwise (fun a b => a.hash ≠ b.hash) (st.credentials.map Prod.snd)

def dupCred : Credential := ⟨0, "S1", 7, "degree", "h", "simulated_x", "T0"⟩

/-- C8 counterexample: `createCredential` performs no uniqueness check, so
inserting the same credential twice yields a reachable store state with two
records sharing one hash — the claimed state invariant is not preserved by
every store operation. -/
theorem createCredential_admits_duplicate_hash :
    ((((createCredential (createCredential emptyStorage dupCred).1 dupCred).1).credentials.map
        Prod.snd).filter (fun c => c.hash == dupCred.hash)).length = 2 := by
  decide

/-- C8 amended: hash uniqueness is a conditional invariant: `createCredential`
preserves it provided the hash of the inserted credential is not already present
(which lookup-by-hash reports); the store itself enforces nothing. -/
theorem createCredential_preserves_hashUnique (st : MemStorage) (c : Credential)
    (hinv : hashUnique st) (hfresh : getCredentialByHash st c.hash = none) :
    hashUnique (createCredential st c).1 := by
  unfold hashUnique createCredential
  simp only [List.map_append, List.map_cons, List.map_nil]
  rw [List.pairwise_append]
  refine ⟨hinv, by simp, ?_⟩
  intro a ha b hb
  simp only [List.mem_cons, List.not_mem_nil, or_false] at hb
  subst hb
  rw [getCredentialByHash, List.find?_eq_none] at hfresh
  have := hfresh a ha
  simpa using this

theorem createCredential_preserves_hashUnique_witness :
    hashUnique emptyStorage ∧
    getCredentialByHash emptyStorage dupCred.hash = none ∧
    hashUnique (createCredential emptyStorage dupCred).1 :=
  ⟨List.Pairwise.nil, rfl,
   createCredential_preserves_hashUnique emptyStorage dupCred List.Pairwise.nil rfl⟩

/-- C4 counterexample: the dash separator does not make field boundaries
unambiguous — a `studentId` containing the separator collides with a distinct
tuple, giving the same pre-hash encoding and hence the same digest. -/
theorem dataToHash_boundary_collision :
    dataToHash "a-1" 2 "x" "t" "n" = dataToHash "a" 1 "2-x" "t" "n" ∧
    credentialHash "a-1" 2 "x" "t" "n" = credentialHash "a" 1 "2-x" "t" "n" ∧
    ("a-1" : String) ≠ "a" := by
  refine ⟨by decide, by decide, by decide⟩

/-- C4 amended: for tuples none of whose string fields contains the separator
character, the dash-joined pre-hash encodings of two distinct tuples always
differ (the numeric `universityId` renders dash-free by construction), and in
particular adjacent-field boundary cases do not collide; a field containing
the separator can collide. -/
theorem dataToHash_injective_on_dashfree_fields :
    (∀ (sid1 : String) (uni1 : Nat) (ct1 t1 n1 : String)
       (sid2 : String) (uni2 : Nat) (ct2 t2 n2 : String),
       '-' ∉ sid1.data → '-' ∉ ct1.data → '-' ∉ t1.data →
       '-' ∉ sid2.data → '-' ∉ ct2.data → '-' ∉ t2.data →
       dataToHash sid1 uni1 ct1 t1 n1 = dataToHash sid2 uni2 ct2 t2 n2 →
       sid1 = sid2 ∧ uni1 = uni2 ∧ ct1 = ct2 ∧ t1 = t2 ∧ n1 = n2) ∧
    dataToHash "ab" 7 "c" "t" "n" ≠ dataToHash "a" 7 "bc" "t" "n" :=
  ⟨fun sid1 uni1 ct1 t1 n1 sid2 uni2 ct2 t2 n2 h1 h2 h3 h4 h5 h6 h =>
     dataToHash_inj sid1 uni1 ct1 t1 n1 sid2 uni2 ct2 t2 n2 h1 h2 h3 h4 h5 h6 h,
   by decide⟩

theorem dataToHash_injective_on_dashfree_fields_witness :
    ('-' ∉ ("S1" : String).data) ∧
    (("S1" : String) = "S1" ∧ (7 : Nat) = 7 ∧ ("degree" : String) = "degree" ∧
      ("T0" : String) = "T0" ∧ ("n0" : String) = "n0") :=
  ⟨by decide,
   dataToHash_injective_on_dashfree_fields.1 "S1" 7 "degree" "T0" "n0" "S1" 7 "degree" "T0" "n0"
     (by decide) (by decide) (by decide) (by decide) (by decide) (by decide) rfl⟩

/-! ## Issuance fallback -/

theorem ledgerAttempt_fallback (env : IssueEnv)
    (hfail : env.balanceResult = .error () ∨
             (∃ b, env.balanceResult = .ok b ∧ b ≤ 5000) ∨
             env.blockhashResult = .error () ∨
             env.sendResult = .error ()) :
    ledgerAttempt env = ([.balanceQuery], "simulated_" ++ env.simSuffix) ∨
    ledgerAttempt env = ([.balanceQuery, .blockhashQuery], "simulated_" ++ env.simSuffix) ∨
    ledgerAttempt env
      = ([.balanceQuery, .blockhashQuery, .ledgerWrite], "simulated_" ++ env.simSuffix) := by
  rcases hbr : env.balanceResult with e | balance
  · left
    simp [ledgerAttempt, hbr]
  · by_cases hbal : balance > 5000
    · rcases hbh : env.blockhashResult with e | bh
      · right; left
        simp [ledgerAttempt, hbr, hbal, hbh]
      · rcases hsr : env.sendResult with e | txid
        · right; right
          simp [ledgerAttempt, hbr, hbal, hbh, hsr]
        · exfalso
          rcases hfail with h | ⟨b, hb, hle⟩ | h | h
          · rw [hbr] at h; exact Except.noConfusion h
          · rw [hbr] at hb; injection hb with hb; omega
          · rw [hbh] at h; exact Except.noConfusion h
          · rw [hsr] at h; exact Except.noConfusion h
    · left
      simp [ledgerAttempt, hbr, hbal]

theorem ledgerAttempt_at_most_one_write (env : IssueEnv) :
    ((ledgerAttempt env).1.count .ledgerWrite) ≤ 1 := by
  rcases hbr : env.balanceResult with e | balance
  · simp [ledgerAttempt, hbr]
  · by_cases hbal : balance > 5000
    · rcases hbh : env.blockhashResult with e | bh
      · simp [ledgerAttempt, hbr, hbal, hbh]
      · rcases hsr : env.sendResult with e | txid
        · simp [ledgerAttempt, hbr, hbal, hbh, hsr]
        · simp [ledgerAttempt, hbr, hbal, hbh, hsr]
    · simp [ledgerAttempt, hbr, hbal]

/-- Unfolding of a validated, authorized issuance run. -/
theorem issueHandler_run (u : User) (body : IssueBody) (env : IssueEnv) (st : MemStorage)
    (studentId credentialType : String)
    (hrole : u.role = "university") (hsid : body.studentId = some studentId)
    (hct : body.credentialType = some credentialType) :
    issueHandler (some u) body env st
      = ((ledgerAttempt env).1 ++ [IssueEvent.storeCreate],
         .ok (⟨st.credentials ++ [(st.currentCredentialId,
                 ⟨st.currentCredentialId, studentId, u.id, credentialType,
                  credentialHash studentId u.id credentialType env.issuedAt env.nonce,
                  (ledgerAttempt env).2, env.issuedAt⟩)], st.currentCredentialId + 1⟩,
              ⟨st.currentCredentialId,
               credentialHash studentId u.id credentialType env.issuedAt env.nonce,
               (ledgerAttempt env).2, env.issuedAt,
               isSimulatedTx (ledgerAttempt env).2⟩)) := by
  simp only [issueHandler, hsid, hct, hrole]
  rfl

/-- C2: a validated, authorized issuance for which the balance query throws or
reports at most the 5000-lamport fee threshold, or the ledger write throws at
the blockhash fetch or the submission, still succeeds: the response (and the
persisted record) carries the `"simulated_"`-sentinel transaction id with a
random suffix, `isSimulated = true`, and the trace contains at most one
ledger-write attempt. -/
theorem issuance_absorbs_ledger_failure
    (u : User) (body : IssueBody) (env : IssueEnv) (st : MemStorage)
    (studentId credentialType : String)
    (hrole : u.role = "university")
    (hsid : body.studentId = some studentId)
    (hct : body.credentialType = some credentialType)
    (hfail : env.balanceResult = .error () ∨
             (∃ b, env.balanceResult = .ok b ∧ b ≤ 5000) ∨
             env.blockhashResult = .error () ∨
             env.sendResult = .error ()) :
    ∃ evs st2 resp, issueHandler (some u) body env st = (evs, .ok (st2, resp)) ∧
      resp.transactionId = "simulated_" ++ env.simSuffix ∧
      resp.isSimulated = true ∧
      ((evs.count IssueEvent.ledgerWrite) ≤ 1) := by
  have hrun := issueHandler_run u body env st studentId credentialType hrole hsid hct
  have hla := ledgerAttempt_fallback env hfail
  rcases hla with hla | hla | hla <;>
    rw [hla] at hrun <;>
    exact ⟨_, _, _, hrun, rfl, strStartsWith_append "simulated_" env.simSuffix,
      by simp [List.count_append, List.count_cons]⟩

def wUser : User := ⟨3, "uni", "pw", "university", some "U"⟩

def wBody : IssueBody := ⟨some "S1", some "degree", none, none, none, none, none⟩

def wEnvSim : IssueEnv := ⟨"aa", "T0", "bb", .ok 17, .ok "B", .ok "TXREAL"⟩

theorem issuance_absorbs_ledger_failure_witness :
    wUser.role = "university" ∧
    wBody.studentId = some "S1" ∧
    wBody.credentialType = some "degree" ∧
    (∃ b, wEnvSim.balanceResult = Except.ok b ∧ b ≤ 5000) ∧
    (∃ evs st2 resp, issueHandler (some wUser) wBody wEnvSim emptyStorage = (evs, .ok (st2, resp)) ∧
      resp.transactionId = "simulated_" ++ wEnvSim.simSuffix ∧
      resp.isSimulated = true ∧
      ((evs.count IssueEvent.ledgerWrite) ≤ 1)) :=
  ⟨rfl, rfl, rfl, ⟨17, rfl, by omega⟩,
   issuance_absorbs_ledger_failure wUser wBody wEnvSim emptyStorage "S1" "degree" rfl rfl rfl
     (Or.inr (Or.inl ⟨17, rfl, by omega⟩))⟩

/-! ## Server-side derivation of the persisted fields -/

/-- C10: the issuance endpoint reads only `studentId` and `credentialType`
from the request body: replacing any other body field (caller-supplied
`universityId`, `hash`, `nonce`, `transactionId`, `issuedAt`) leaves the run —
trace, response and store state — identical; and in every persisted run the
stored `universityId` is the id of the authenticated user while `hash`, `issuedAt`
and the nonce input are computed server-side from the environment. -/
theorem issuance_reads_only_studentId_and_credentialType
    (user : Option User) (body : IssueBody) (env : IssueEnv) (st : MemStorage)
    (v : Option Nat) (h0 n0 t0 d0 : Option String) :
    issueHandler user
        { body with
          universityId := v, hash := h0, nonce := n0,
          transactionId := t0, issuedAtField := d0 } env st
      = issueHandler user body env st ∧
    (∀ (u : User) (studentId credentialType : String),
       user = some u → u.role = "university" →
       body.studentId = some studentId → body.credentialType = some credentialType →
       ∃ evs st2 resp,
         issueHandler user body env st = (evs, .ok (st2, resp)) ∧
         resp.hash = credentialHash studentId u.id credentialType env.issuedAt env.nonce ∧
         resp.issuedAt = env.issuedAt ∧
         (st2.credentials.map Prod.snd).getLast?
           = some ⟨st.currentCredentialId, studentId, u.id, credentialType,
                   credentialHash studentId u.id credentialType env.issuedAt env.nonce,
                   resp.transactionId, env.issuedAt⟩) := by
  constructor
  · rcases body with ⟨bsid, bct, bu, bh, bn, bt, bd⟩
    rfl
  · rintro u studentId credentialType rfl hrole hsid hct
    have hrun := issueHandler_run u body env st studentId credentialType hrole hsid hct
    refine ⟨_, _, _, hrun, rfl, rfl, ?_⟩
    simp [List.map_append]

theorem issuance_reads_only_studentId_and_credentialType_witness :
    (issueHandler (some wUser)
        { wBody with
          universityId := some 99, hash := some "H", nonce := some "N",
          transactionId := some "T", issuedAtField := some "D" } wEnvSim emptyStorage
      = issueHandler (some wUser) wBody wEnvSim emptyStorage) ∧
    (∃ evs st2 resp,
       issueHandler (some wUser) wBody wEnvSim emptyStorage = (evs, .ok (st2, resp)) ∧
       resp.hash = credentialHash "S1" wUser.id "degree" wEnvSim.issuedAt wEnvSim.nonce ∧
       resp.issuedAt = wEnvSim.issuedAt ∧
       (st2.credentials.map Prod.snd).getLast?
         = some ⟨emptyStorage.currentCredentialId, "S1", wUser.id, "degree",
                 credentialHash "S1" wUser.id "degree" wEnvSim.issuedAt wEnvSim.nonce,
                 resp.transactionId, wEnvSim.issuedAt⟩) :=
  ⟨(issuance_reads_only_studentId_and_credentialType (some wUser) wBody wEnvSim emptyStorage
      (some 99) (some "H") (some "N") (some "T") (some "D")).1,
   (issuance_reads_only_studentId_and_credentialType (some wUser) wBody wEnvSim emptyStorage
      (some 99) (some "H") (some "N") (some "T") (some "D")).2 wUser "S1" "degree"
      rfl rfl rfl rfl⟩

/-! ## Verification round trip -/

/-- C1: an issuance that persists, immediately verified against the store
state it produced (with its hash fresh in the prior state), yields
`verified = true`. A simulated fallback issuance verifies with
`simulatedOnly = true` and no `blockchainProof` under any ledger oracle; a
real-write issuance, when the ledger returns the anchored transaction (a memo
instruction carrying the hash), verifies with `simulatedOnly = false` and a
`blockchainProof` whose `transactionId` equals the one returned by the issuance. -/
theorem issue_then_verify_roundtrip
    (u : User) (body : IssueBody) (env : IssueEnv) (st : MemStorage)
    (studentId credentialType : String) (evs : List IssueEvent) (st2 : MemStorage)
    (resp : IssueResponse)
    (hrole : u.role = "university")
    (hsid : body.studentId = some studentId)
    (hct : body.credentialType = some credentialType)
    (hrun : issueHandler (some u) body env st = (evs, .ok (st2, resp)))
    (hfresh : getCredentialByHash st resp.hash = none) :
    (resp.isSimulated = true →
       ∀ gt : String → Except Unit (Option LedgerTx),
         verifyHandler resp.hash st2 gt
           = ([.storeLookup resp.hash],
              .ok ⟨true, true, ⟨resp.id, studentId, credentialType, u.id, resp.issuedAt⟩,
                   none⟩)) ∧
    (resp.isSimulated = false →
       ∀ (gt : String → Except Unit (Option LedgerTx)) (tx : LedgerTx),
         gt resp.transactionId = .ok (some tx) →
         (∃ i ∈ tx.instructions, i.programId = memoProgramId ∧ i.data = resp.hash) →
         verifyHandler resp.hash st2 gt
           = ([.storeLookup resp.hash, .ledgerFetch resp.transactionId],
              .ok ⟨true, false, ⟨resp.id, studentId, credentialType, u.id, resp.issuedAt⟩,
                   some ⟨resp.transactionId, tx.blockTime, tx.slot,
                         tx.confirmations.getD 0⟩⟩)) := by
  have hrun2 := issueHandler_run u body env st studentId credentialType hrole hsid hct
  rw [hrun] at hrun2
  injection hrun2 with hevs h3
  injection h3 with h4
  injection h4 with hst2 hresp
  subst hst2 hresp hevs
  have hfmt : hashFormatOk (credentialHash studentId u.id credentialType env.issuedAt env.nonce)
      = true := hashFormatOk_sha256 _
  have hlook := getCredentialByHash_insert st
    ⟨0, studentId, u.id, credentialType,
     credentialHash studentId u.id credentialType env.issuedAt env.nonce,
     (ledgerAttempt env).2, env.issuedAt⟩ hfresh
  simp only [createCredential] at hlook
  constructor
  · intro hsim gt
    have hsim2 : isSimulatedTx (ledgerAttempt env).2 = true := hsim
    simp [verifyHandler, hfmt, hlook, hsim2, credView]
  · intro hsim gt tx hgt hmem
    have hsim2 : isSimulatedTx (ledgerAttempt env).2 = false := hsim
    have hgt2 : gt (ledgerAttempt env).2 = .ok (some tx) := hgt
    have hmem2 : ∃ i ∈ tx.instructions, i.programId = memoProgramId ∧
        i.data = credentialHash studentId u.id credentialType env.issuedAt env.nonce := hmem
    have hany : tx.instructions.any
        (fun instruction =>
          instruction.programId == memoProgramId &&
          instruction.data == credentialHash studentId u.id credentialType env.issuedAt env.nonce)
        = true := by
      rw [List.any_eq_true]
      obtain ⟨i, hi, hp⟩ := hmem2
      exact ⟨i, hi, by simp [hp.1, hp.2]⟩
    simp [verifyHandler, hfmt, hlook, hsim2, hgt2, hany, credView]

def wEnvErr : IssueEnv := ⟨"aa", "T0", "bb", .error (), .error (), .error ()⟩

def wRunSim : List IssueEvent × Except IssueError (MemStorage × IssueResponse) :=
  issueHandler (some wUser) wBody wEnvErr emptyStorage

def wEvsSim : List IssueEvent := wRunSim.1

def wSt2Sim : MemStorage :=
  match wRunSim.2 with
  | .ok (s, _) => s
  | .error _ => emptyStorage

def wRespSim : IssueResponse :=
  match wRunSim.2 with
  | .ok (_, r) => r
  | .error _ => ⟨0, "", "", "", false⟩

theorem issue_then_verify_roundtrip_witness :
    issueHandler (some wUser) wBody wEnvErr emptyStorage = (wEvsSim, .ok (wSt2Sim, wRespSim)) ∧
    getCredentialByHash emptyStorage wRespSim.hash = none ∧
    wRespSim.isSimulated = true ∧
    verifyHandler wRespSim.hash wSt2Sim (fun _ => .error ())
      = ([.storeLookup wRespSim.hash],
         .ok ⟨true, true, ⟨wRespSim.id, "S1", "degree", wUser.id, wRespSim.issuedAt⟩, none⟩) := by
  refine ⟨rfl, rfl, rfl, ?_⟩
  exact (issue_then_verify_roundtrip wUser wBody wEnvErr emptyStorage "S1" "degree"
    wEvsSim wSt2Sim wRespSim rfl rfl rfl rfl rfl).1 rfl (fun _ => .error ())

end BlockVerify
